import Mathlib

/-!
Verification of the Whisper-Assistant ingestion core against its
specification.  The definitions below are a shallow embedding of
`src/ingestion/models.py`, `src/ingestion/ingestion.py` and
`src/ingestion/qdrant_store.py`:

* `TranscriptUtterance`, `computeId`, `to_dict`, `from_dict` embed the
  canonical utterance model (`models.py`), including a full executable
  model of SHA-256 so that `compute_id` is the real hash, truncated to
  32 hex characters exactly as `hexdigest()[:32]` is in the source.
* `upsert_utterances` embeds `QdrantStore.upsert_utterances`.
* `pollAndIngest` embeds `IngestionPipeline._poll_and_ingest`, with the
  external collaborators (Vexa fetch outcome, Qdrant client outcome,
  the optional callback and whether it raises) supplied as parameters.
* `loopStep` / `loopRun` / `runEnter` / `stopOp` / `runFinish` embed the
  `IngestionPipeline.run` loop and `stop` as a step-indexed transition
  system over the instance state.

Machine 32-bit words are modelled as `Nat` truncated with `% 2 ^ 32`;
Python floats (timestamps) are modelled as rationals with an injective
textual rendering standing in for `str(float)` (which is injective on
floats as well).
-/

/-! ## SHA-256 (FIPS 180-4), executable model over `Nat` -/

/-- Truncate to a 32-bit word. -/
def w32 (x : Nat) : Nat := x % 4294967296

/-- Right rotation of a 32-bit word. -/
def rotr (n x : Nat) : Nat := w32 ((x >>> n) ||| (x <<< (32 - n)))

/-- The 64 SHA-256 round constants. -/
def sha256K : List Nat :=
  [1116352408, 1899447441, 3049323471, 3921009573,
   961987163, 1508970993, 2453635748, 2870763221,
   3624381080, 310598401, 607225278, 1426881987,
   1925078388, 2162078206, 2614888103, 3248222580,
   3835390401, 4022224774, 264347078, 604807628,
   770255983, 1249150122, 1555081692, 1996064986,
   2554220882, 2821834349, 2952996808, 3210313671,
   3336571891, 3584528711, 113926993, 338241895,
   666307205, 773529912, 1294757372, 1396182291,
   1695183700, 1986661051, 2177026350, 2456956037,
   2730485921, 2820302411, 3259730800, 3345764771,
   3516065817, 3600352804, 4094571909, 275423344,
   430227734, 506948616, 659060556, 883997877,
   958139571, 1322822218, 1537002063, 1747873779,
   1955562222, 2024104815, 2227730452, 2361852424,
   2428436474, 2756734187, 3204031479, 3329325298]

/-- The eight 32-bit working variables of the SHA-256 state. -/
structure H8 where
  a : Nat
  b : Nat
  c : Nat
  d : Nat
  e : Nat
  f : Nat
  g : Nat
  h : Nat
deriving DecidableEq, Repr

/-- SHA-256 initial hash value. -/
def sha256InitH : H8 :=
  ⟨1779033703, 3144134277, 1013904242, 2773480762,
   1359893119, 2600822924, 528734635, 1541459225⟩

/-- One round of the SHA-256 compression function. -/
def compressRound (s : H8) (k w : Nat) : H8 :=
  let bigS1 := (rotr 6 s.e) ^^^ (rotr 11 s.e) ^^^ (rotr 25 s.e)
  let ch := (s.e &&& s.f) ^^^ ((s.e ^^^ 0xffffffff) &&& s.g)
  let t1 := w32 (s.h + bigS1 + ch + k + w)
  let bigS0 := (rotr 2 s.a) ^^^ (rotr 13 s.a) ^^^ (rotr 22 s.a)
  let mj := (s.a &&& s.b) ^^^ (s.a &&& s.c) ^^^ (s.b &&& s.c)
  let t2 := w32 (bigS0 + mj)
  ⟨w32 (t1 + t2), s.a, s.b, s.c, w32 (s.d + t1), s.e, s.f, s.g⟩

/-- Fold the compression rounds over the round constants and schedule. -/
def compressLoop (s : H8) : List Nat → List Nat → H8
  | k :: ks, w :: ws => compressLoop (compressRound s k w) ks ws
  | _, _ => s

/-- Extend a 16-word block to the 64-word message schedule (48 steps). -/
def extendSchedule : Nat → List Nat → List Nat
  | 0, ws => ws
  | n + 1, ws =>
    let i := ws.length
    let x15 := ws.getD (i - 15) 0
    let x2 := ws.getD (i - 2) 0
    let x16 := ws.getD (i - 16) 0
    let x7 := ws.getD (i - 7) 0
    let s0 := (rotr 7 x15) ^^^ (rotr 18 x15) ^^^ (x15 >>> 3)
    let s1 := (rotr 17 x2) ^^^ (rotr 19 x2) ^^^ (x2 >>> 10)
    extendSchedule n (ws ++ [w32 (x16 + s0 + x7 + s1)])

/-- Process one 16-word block. -/
def processBlock (hs : H8) (block : List Nat) : H8 :=
  let ws := extendSchedule 48 block
  let r := compressLoop hs sha256K ws
  ⟨w32 (hs.a + r.a), w32 (hs.b + r.b), w32 (hs.c + r.c), w32 (hs.d + r.d),
   w32 (hs.e + r.e), w32 (hs.f + r.f), w32 (hs.g + r.g), w32 (hs.h + r.h)⟩

/-- Process the whole padded message, 16 words (64 bytes) at a time. -/
def processAll (hs : H8) : List Nat → H8
  | w0 :: w1 :: w2 :: w3 :: w4 :: w5 :: w6 :: w7 :: w8 :: w9 :: w10 :: w11 :: w12 :: w13 :: w14 :: w15 :: rest =>
      processAll (processBlock hs [w0, w1, w2, w3, w4, w5, w6, w7, w8, w9, w10, w11, w12, w13, w14, w15]) rest
  | _ => hs

/-- Big-endian 32-bit words from a byte list. -/
def bytesToWords : List Nat → List Nat
  | b0 :: b1 :: b2 :: b3 :: rest => ((b0 <<< 24) ||| (b1 <<< 16) ||| (b2 <<< 8) ||| b3) :: bytesToWords rest
  | _ => []

/-- Big-endian 8-byte encoding of a natural number (the message bit length). -/
def be64 (n : Nat) : List Nat :=
  (List.range 8).map (fun i => (n >>> (8 * (7 - i))) % 256)

/-- SHA-256 padding: `0x80`, zeros to 56 mod 64, then the 64-bit bit length. -/
def padBytes (m : List Nat) : List Nat :=
  m ++ [0x80] ++ List.replicate ((119 - (m.length % 64)) % 64) 0 ++ be64 (8 * m.length)

/-- UTF-8 encoding of a single character, as byte values. -/
def utf8Bytes (c : Char) : List Nat :=
  let n := c.toNat
  if n < 0x80 then [n]
  else if n < 0x800 then [0xc0 ||| (n >>> 6), 0x80 ||| (n % 64)]
  else if n < 0x10000 then
    [0xe0 ||| (n >>> 12), 0x80 ||| ((n >>> 6) % 64), 0x80 ||| (n % 64)]
  else
    [0xf0 ||| (n >>> 18), 0x80 ||| ((n >>> 12) % 64), 0x80 ||| ((n >>> 6) % 64), 0x80 ||| (n % 64)]

/-- UTF-8 bytes of a string (Python `str.encode()`). -/
def strBytes (s : String) : List Nat :=
  (s.data.map utf8Bytes).flatten

/-- Lower-case hex digit. -/
def hexDigit (n : Nat) : Char :=
  if n < 10 then Char.ofNat (48 + n) else Char.ofNat (87 + n)

/-- Eight lower-case hex digits of a 32-bit word, most significant first. -/
def hexWord (w : Nat) : List Char :=
  (List.range 8).map (fun i => hexDigit ((w >>> (4 * (7 - i))) % 16))

/-- The 64 hex characters of a final SHA-256 state. -/
def digestChars (s : H8) : List Char :=
  hexWord s.a ++ hexWord s.b ++ hexWord s.c ++ hexWord s.d ++
  hexWord s.e ++ hexWord s.f ++ hexWord s.g ++ hexWord s.h

/-- `hashlib.sha256(s.encode()).hexdigest()` as a list of characters. -/
def sha256hexChars (s : String) : List Char :=
  digestChars (processAll sha256InitH (bytesToWords (padBytes (strBytes s))))

/-- `hashlib.sha256(s.encode()).hexdigest()` as a string. -/
def sha256hex (s : String) : String :=
  String.mk (sha256hexChars s)

set_option maxRecDepth 100000 in
/-- Sanity check of the SHA-256 model against the FIPS 180-4 test vector. -/
theorem sha256_abc_test_vector :
    sha256hex "abc" = "ba7816bf8f01cfea414140de5dae2223b00361a396177a9cb410ff61f20015ad" := by
  decide

/-! ## Canonical utterance model (`src/ingestion/models.py`) -/

/-- `TranscriptUtterance` from `models.py`: the canonical utterance record.
Python floats (epoch-second timestamps) are modelled as rationals. -/
structure TranscriptUtterance where
  meeting_id : String
  speaker_id : String
  speaker_name : Option String
  text : String
  start_ts : ℚ
  end_ts : Option ℚ
  source : String := "vexa"
deriving DecidableEq, Repr

/-- Stand-in for Python `str(float)` on a timestamp: an injective textual
rendering of the rational (Python float repr is likewise injective). -/
def tsRepr (q : ℚ) : String := toString q.num ++ "/" ++ toString q.den

/-- The interpolated key of `compute_id`
(`f"{meeting_id}:{speaker_id}:{start_ts}:{text}"`, `models.py` line 35). -/
def computeKey (u : TranscriptUtterance) : String :=
  u.meeting_id ++ ":" ++ u.speaker_id ++ ":" ++ tsRepr u.start_ts ++ ":" ++ u.text

/-- `TranscriptUtterance.compute_id`:
`hashlib.sha256(key.encode()).hexdigest()[:32]`. -/
def computeId (u : TranscriptUtterance) : String :=
  String.mk ((sha256hexChars (computeKey u)).take 32)

/-! ## Flat-mapping serialization (`to_dict` / `from_dict`)

A Python `dict` holding the utterance's fields is modelled as an
association list of field name to a tagged value.  Only values of the
types actually stored by `to_dict` (strings, floats, `None`) are
representable; `from_dict` maps a missing required key — Python's
`KeyError` — to `none`. -/

/-- A value stored in the flat serialization mapping. -/
inductive FieldValue where
  | vStr (s : String)
  | vFloat (q : ℚ)
  | vNone
deriving DecidableEq, Repr

/-- An optional string rendered into the mapping (`asdict` on an
`Optional[str]` field). -/
def optStrVal : Option String → FieldValue
  | some s => .vStr s
  | none => .vNone

/-- An optional float rendered into the mapping. -/
def optFloatVal : Option ℚ → FieldValue
  | some q => .vFloat q
  | none => .vNone

/-- `TranscriptUtterance.to_dict` (`asdict(self)`), with fields in
dataclass declaration order. -/
def to_dict (u : TranscriptUtterance) : List (String × FieldValue) :=
  [("meeting_id", .vStr u.meeting_id),
   ("speaker_id", .vStr u.speaker_id),
   ("speaker_name", optStrVal u.speaker_name),
   ("text", .vStr u.text),
   ("start_ts", .vFloat u.start_ts),
   ("end_ts", optFloatVal u.end_ts),
   ("source", .vStr u.source)]

/-- `data[k]` / `data.get(k)`: first value stored under key `k`. -/
def dictGet (d : List (String × FieldValue)) (k : String) : Option FieldValue :=
  (d.find? (fun kv => kv.1 == k)).map (fun kv => kv.2)

/-- Required string field: missing key (Python `KeyError`) gives `none`. -/
def reqStr (d : List (String × FieldValue)) (k : String) : Option String :=
  match dictGet d k with
  | some (.vStr s) => some s
  | _ => none

/-- Required float field: missing key (Python `KeyError`) gives `none`. -/
def reqFloat (d : List (String × FieldValue)) (k : String) : Option ℚ :=
  match dictGet d k with
  | some (.vFloat q) => some q
  | _ => none

/-- `data.get(k)` for an optional string field: a missing key or a stored
`None` both yield `none`. -/
def optStrGet (d : List (String × FieldValue)) (k : String) : Option String :=
  match dictGet d k with
  | some (.vStr s) => some s
  | _ => none

/-- `data.get(k)` for an optional float field. -/
def optFloatGet (d : List (String × FieldValue)) (k : String) : Option ℚ :=
  match dictGet d k with
  | some (.vFloat q) => some q
  | _ => none

/-- `TranscriptUtterance.from_dict`: rebuilds the record; a missing
required key (Python `KeyError`) is modelled as `none`. -/
def from_dict (d : List (String × FieldValue)) : Option TranscriptUtterance :=
  match reqStr d "meeting_id", reqStr d "speaker_id", reqStr d "text", reqFloat d "start_ts" with
  | some m, some sp, some t, some ts =>
      some { meeting_id := m
             speaker_id := sp
             speaker_name := optStrGet d "speaker_name"
             text := t
             start_ts := ts
             end_ts := optFloatGet d "end_ts"
             source := (optStrGet d "source").getD "vexa" }
  | _, _, _, _ => none

/-! ## Claim C1: determinism and collision behaviour of `compute_id` -/

/-- Concrete utterance whose meeting id contains a `:` — used to exhibit a
delimiter-injection collision of `compute_id`. -/
def uC1a : TranscriptUtterance :=
  { meeting_id := "a:b", speaker_id := "c", speaker_name := none,
    text := "hi", start_ts := 1, end_ts := none, source := "vexa" }

/-- A different utterance (different meeting id and speaker id) whose
colon-joined key coincides with that of `uC1a`. -/
def uC1b : TranscriptUtterance :=
  { meeting_id := "a", speaker_id := "b:c", speaker_name := none,
    text := "hi", start_ts := 1, end_ts := none, source := "vexa" }

set_option maxRecDepth 100000 in
/-- C1, counterexample.  The claim asserts that utterances differing in at
least one of (meeting id, speaker id, start time, text) get different ids
with overwhelming probability.  `uC1a` and `uC1b` differ in both meeting id
and speaker id, yet their ids are *always* equal: `compute_id` joins the
four fields with `":"` without escaping, so `("a:b", "c")` and
`("a", "b:c")` produce the identical key `"a:b:c:1/1:hi"` and hence the
identical hash — a certain collision, not an overwhelmingly improbable one. -/
theorem C1_counterexample :
    computeId uC1a = computeId uC1b ∧ uC1a ≠ uC1b ∧
    uC1a.meeting_id ≠ uC1b.meeting_id ∧ uC1a.speaker_id ≠ uC1b.speaker_id ∧
    uC1a.start_ts = uC1b.start_ts ∧ uC1a.text = uC1b.text :=
  ⟨rfl, by decide, by decide, by decide, rfl, rfl⟩

/-- C1, amended.  For all utterances with equal (meeting id, speaker id,
start time, text), `compute_id` agrees, and the result is a fixed-length
(32-character) identifier depending only on those four fields through the
colon-joined key string; since the join is unescaped, equality of the
joined keys — not of the field tuples — is what determines the id, so ids
of differing tuples can deterministically coincide (`C1_counterexample`). -/
theorem C1_compute_id_amended :
    (∀ A B : TranscriptUtterance,
        A.meeting_id = B.meeting_id → A.speaker_id = B.speaker_id →
        A.start_ts = B.start_ts → A.text = B.text → computeId A = computeId B) ∧
    (∀ u : TranscriptUtterance, (computeId u).length = 32) ∧
    (∀ A B : TranscriptUtterance, computeKey A = computeKey B → computeId A = computeId B) := by
  refine ⟨fun A B h1 h2 h3 h4 => ?_, fun u => ?_, fun A B hk => ?_⟩
  · have hk : computeKey A = computeKey B := by simp [computeKey, h1, h2, h3, h4]
    simp [computeId, hk]
  · simp [computeId, String.length, List.length_take, sha256hexChars, digestChars, hexWord]
  · simp [computeId, hk]

/-- Concrete input for the C1 witness: equal defining tuple, different
optional fields. -/
def uC1c : TranscriptUtterance :=
  { meeting_id := "meet-1", speaker_id := "spk-1", speaker_name := none,
    text := "hello", start_ts := 2, end_ts := none, source := "vexa" }

/-- Same defining tuple as `uC1c` with different optional fields. -/
def uC1d : TranscriptUtterance :=
  { meeting_id := "meet-1", speaker_id := "spk-1", speaker_name := some "Ada",
    text := "hello", start_ts := 2, end_ts := some 3, source := "other" }

/-- C1 witness: `C1_compute_id_amended` applied to the concrete pair
`uC1c`, `uC1d`. -/
theorem C1_compute_id_witness :
    (uC1c.meeting_id = uC1d.meeting_id ∧ uC1c.speaker_id = uC1d.speaker_id ∧
     uC1c.start_ts = uC1d.start_ts ∧ uC1c.text = uC1d.text) ∧
    computeId uC1c = computeId uC1d ∧ (computeId uC1c).length = 32 :=
  ⟨⟨rfl, rfl, rfl, rfl⟩,
   C1_compute_id_amended.1 uC1c uC1d rfl rfl rfl rfl,
   C1_compute_id_amended.2.1 uC1c⟩

/-! ## Claim C9: lossless serialization round-trip -/

/-- C9.  `from_dict (to_dict u)` recovers `u` field by field for every
utterance, and `from_dict` on a mapping holding only the four required
fields succeeds with the documented defaults (`speaker_name = None`,
`end_ts = None`, `source = "vexa"`) instead of failing. -/
theorem C9_serialization_round_trip :
    (∀ u : TranscriptUtterance, from_dict (to_dict u) = some u) ∧
    (∀ (m sp t : String) (ts : ℚ),
      from_dict [("meeting_id", .vStr m), ("speaker_id", .vStr sp),
                 ("text", .vStr t), ("start_ts", .vFloat ts)] =
        some { meeting_id := m, speaker_id := sp, speaker_name := none, text := t,
               start_ts := ts, end_ts := none, source := "vexa" }) := by
  constructor
  · intro u
    cases u with
    | mk m sp spn t ts ets src => cases spn <;> cases ets <;> rfl
  · intro m sp t ts
    rfl

/-! ## Store model (`src/ingestion/qdrant_store.py`) -/

/-- `VECTOR_SIZE` constant from `qdrant_store.py`. -/
def VECTOR_SIZE : Nat := 384

/-- `QdrantStore._placeholder_embed`: a zero vector of dimension
`VECTOR_SIZE`. -/
def placeholderEmbed (_text : String) : List ℚ := List.replicate VECTOR_SIZE 0

/-- A Qdrant `PointStruct` as built by `upsert_utterances`. -/
structure QdrantPoint where
  id : String
  vector : List ℚ
  payload : List (String × FieldValue)
deriving DecidableEq

/-- Observable interaction with the underlying Qdrant client. -/
inductive StoreEvent where
  | clientUpsert (points : List QdrantPoint)
deriving DecidableEq

/-- `QdrantStore.upsert_utterances`.  The underlying client call either
succeeds or raises; `clientOk` supplies that outcome (both `except`
branches return `False`).  The returned event list records whether the
client was contacted at all. -/
def upsert_utterances (utterances : List TranscriptUtterance) (clientOk : Bool) :
    Bool × List StoreEvent :=
  if utterances.isEmpty then (true, [])
  else
    let points := utterances.map (fun u =>
      { id := computeId u, vector := placeholderEmbed u.text, payload := to_dict u })
    (clientOk, [.clientUpsert points])

/-! ## Ingestion cycle (`IngestionPipeline._poll_and_ingest`) -/

/-- The `_stats` counter block of `IngestionPipeline`. -/
structure Stats where
  polls : Nat
  utterances_ingested : Nat
  duplicates_skipped : Nat
  errors : Nat
deriving DecidableEq, Repr

/-- The mutable instance state of `IngestionPipeline`: `_running`,
`_last_ts` (the watermark), `_seen_ids` and `_stats`. -/
structure PipelineState where
  running : Bool
  last_ts : Option ℚ
  seen_ids : List String
  stats : Stats
deriving DecidableEq, Repr

/-- The state set up by `IngestionPipeline.__init__`. -/
def initialState : PipelineState :=
  { running := false, last_ts := none, seen_ids := [], stats := ⟨0, 0, 0, 0⟩ }

/-- Outcome of `vexa_client.fetch_latest_transcript`: a raised exception
or a (possibly empty) list of utterances. -/
inductive FetchOutcome where
  | error
  | ok (utterances : List TranscriptUtterance)

/-- Observable actions of one cycle: the fetch call (with the watermark
window it was issued for), the batch store call, each synchronous
callback invocation, and the logging of a caught callback exception. -/
inductive CycleEvent where
  | fetchCall (since_ts : Option ℚ)
  | storeCall (items : List TranscriptUtterance)
  | callback (u : TranscriptUtterance)
  | callbackLogged (u : TranscriptUtterance)
deriving DecidableEq

/-- The dedup loop of `_poll_and_ingest` (lines 127-135): returns the new
utterances in arrival order, the grown seen-set, and the number of
duplicates counted.  New ids enter the seen-set immediately upon
classification. -/
def dedupPartition (seen : List String) :
    List TranscriptUtterance → List TranscriptUtterance × List String × Nat
  | [] => ([], seen, 0)
  | u :: rest =>
    let uid := computeId u
    if uid ∈ seen then
      let r := dedupPartition seen rest
      (r.1, r.2.1, r.2.2 + 1)
    else
      let r := dedupPartition (uid :: seen) rest
      (u :: r.1, r.2.1, r.2.2)

/-- `max(u.start_ts for u in new_utterances)` (line 159); `none` on an
empty list, which the call site never passes. -/
def maxStartTs : List TranscriptUtterance → Option ℚ
  | [] => none
  | u :: rest => some (rest.foldl (fun m v => max m v.start_ts) u.start_ts)

/-- Events produced for one stored utterance by the callback block
(lines 152-156): the invocation, plus a logged-and-swallowed exception
when the callback raises.  A raising callback changes no state. -/
def cbEvents (hasCallback : Bool) (callbackFails : TranscriptUtterance → Bool)
    (u : TranscriptUtterance) : List CycleEvent :=
  if hasCallback then
    CycleEvent.callback u :: (if callbackFails u then [CycleEvent.callbackLogged u] else [])
  else []

/-- The watermark update (lines 160-161):
`if self._last_ts is None or max_ts > self._last_ts: self._last_ts = max_ts`. -/
def advanceWatermark (cur : Option ℚ) (m : ℚ) : Option ℚ :=
  match cur with
  | none => some m
  | some w => if w < m then some m else some w

/-- `IngestionPipeline._poll_and_ingest`.  Collaborator behaviour is
supplied as parameters: the fetch outcome, whether the Qdrant client call
succeeds, whether an `on_new_utterance` callback is registered, and which
utterances make it raise. -/
def pollAndIngest (st : PipelineState) (fetch : FetchOutcome) (clientOk : Bool)
    (hasCallback : Bool) (callbackFails : TranscriptUtterance → Bool) :
    PipelineState × List CycleEvent :=
  let st0 := {st with stats := {st.stats with polls := st.stats.polls + 1}}
  let evs : List CycleEvent := [.fetchCall st0.last_ts]
  match fetch with
  | .error => ({st0 with stats := {st0.stats with errors := st0.stats.errors + 1}}, evs)
  | .ok utterances =>
    if utterances.isEmpty then (st0, evs)
    else
      let parts := dedupPartition st0.seen_ids utterances
      let newUtts := parts.1
      let st1 := {st0 with
        seen_ids := parts.2.1,
        stats := {st0.stats with
          duplicates_skipped := st0.stats.duplicates_skipped + parts.2.2}}
      if newUtts.isEmpty then (st1, evs)
      else
        let evs := evs ++ [.storeCall newUtts]
        let success := (upsert_utterances newUtts clientOk).1
        if success then
          let st2 := {st1 with stats := {st1.stats with
            utterances_ingested := st1.stats.utterances_ingested + newUtts.length}}
          let evs := evs ++ (newUtts.map (cbEvents hasCallback callbackFails)).flatten
          let st3 :=
            match maxStartTs newUtts with
            | none => st2
            | some m => {st2 with last_ts := advanceWatermark st2.last_ts m}
          (st3, evs)
        else
          ({st1 with stats := {st1.stats with errors := st1.stats.errors + 1}}, evs)

/-- The utterances passed to callback invocations, in order. -/
def callbackCalls (evs : List CycleEvent) : List TranscriptUtterance :=
  evs.filterMap (fun e => match e with | .callback u => some u | _ => none)

/-- The batches submitted to the store, in order. -/
def storeCalls (evs : List CycleEvent) : List (List TranscriptUtterance) :=
  evs.filterMap (fun e => match e with | .storeCall l => some l | _ => none)

/-- Order on watermarks: an absent watermark is below every watermark. -/
def wmLeB : Option ℚ → Option ℚ → Bool
  | none, _ => true
  | some _, none => false
  | some a, some b => decide (a ≤ b)

/-! ## Lemmas about the dedup loop and cycle branches -/

/-- The seen-set only grows through the dedup loop. -/
lemma dedup_seen_mono (L : List TranscriptUtterance) (seen : List String) (x : String)
    (hx : x ∈ seen) : x ∈ (dedupPartition seen L).2.1 := by
  induction L generalizing seen with
  | nil => simpa [dedupPartition] using hx
  | cons v rest ih =>
    by_cases h : computeId v ∈ seen
    · simpa [dedupPartition, h] using ih seen hx
    · simpa [dedupPartition, h] using ih (computeId v :: seen) (List.mem_cons_of_mem _ hx)

/-- After the dedup loop, every processed utterance's id is in the seen-set. -/
lemma dedup_mem_seen (L : List TranscriptUtterance) (seen : List String)
    (u : TranscriptUtterance) (hu : u ∈ L) : computeId u ∈ (dedupPartition seen L).2.1 := by
  induction L generalizing seen with
  | nil => cases hu
  | cons v rest ih =>
    by_cases h : computeId v ∈ seen
    · rcases List.mem_cons.mp hu with rfl | hmem
      · simpa [dedupPartition, h] using dedup_seen_mono rest seen _ h
      · simpa [dedupPartition, h] using ih seen hmem
    · rcases List.mem_cons.mp hu with rfl | hmem
      · simpa [dedupPartition, h] using
          dedup_seen_mono rest (computeId u :: seen) _ (List.mem_cons_self _ _)
      · simpa [dedupPartition, h] using ih (computeId v :: seen) hmem

/-- When every id is already seen, the dedup loop classifies everything as
a duplicate and leaves the seen-set unchanged. -/
lemma dedup_all_seen (L : List TranscriptUtterance) (seen : List String)
    (h : ∀ u ∈ L, computeId u ∈ seen) : dedupPartition seen L = ([], seen, L.length) := by
  induction L with
  | nil => simp [dedupPartition]
  | cons v rest ih =>
    have hv : computeId v ∈ seen := h v (List.mem_cons_self _ _)
    simp [dedupPartition, hv, ih (fun u hu => h u (List.mem_cons_of_mem _ hu))]

/-- The new-items list is a sublist of the fetched batch. -/
lemma dedup_news_mem (L : List TranscriptUtterance) (seen : List String)
    (u : TranscriptUtterance) (hu : u ∈ (dedupPartition seen L).1) : u ∈ L := by
  induction L generalizing seen with
  | nil => simp [dedupPartition] at hu
  | cons v rest ih =>
    by_cases h : computeId v ∈ seen
    · simp only [dedupPartition, h, if_pos] at hu
      exact List.mem_cons_of_mem _ (ih seen hu)
    · simp only [dedupPartition, h, if_neg, not_false_iff] at hu
      rcases List.mem_cons.mp hu with rfl | hmem
      · exact List.mem_cons_self _ _
      · exact List.mem_cons_of_mem _ (ih (computeId v :: seen) hmem)

/-- Cycle with a failing fetch (lines 114-122): the error counter and the
poll counter are bumped and nothing else happens. -/
lemma pollAndIngest_fetch_error (st : PipelineState) (c hc : Bool)
    (cb : TranscriptUtterance → Bool) :
    pollAndIngest st .error c hc cb =
      ({st with stats := {st.stats with
          polls := st.stats.polls + 1
          errors := st.stats.errors + 1}},
       [.fetchCall st.last_ts]) := rfl

/-- Cycle with an empty fetch result (line 124): only the poll counter
is bumped. -/
lemma pollAndIngest_ok_nil (st : PipelineState) (c hc : Bool)
    (cb : TranscriptUtterance → Bool) :
    pollAndIngest st (.ok []) c hc cb =
      ({st with stats := {st.stats with polls := st.stats.polls + 1}},
       [.fetchCall st.last_ts]) := rfl

/-- Cycle in which every fetched utterance is a duplicate (line 137): the
duplicate counter absorbs the batch and the store is never contacted. -/
lemma pollAndIngest_ok_nonew (st : PipelineState) (L : List TranscriptUtterance)
    (c hc : Bool) (cb : TranscriptUtterance → Bool)
    (hL : L.isEmpty = false) (hnone : (dedupPartition st.seen_ids L).1 = []) :
    pollAndIngest st (.ok L) c hc cb =
      ({st with
          seen_ids := (dedupPartition st.seen_ids L).2.1
          stats := {st.stats with
            polls := st.stats.polls + 1
            duplicates_skipped := st.stats.duplicates_skipped + (dedupPartition st.seen_ids L).2.2}},
       [.fetchCall st.last_ts]) := by
  simp [pollAndIngest, hL, hnone]

/-- Cycle whose batch store fails (lines 162-164): error counter bumped,
watermark untouched, no callbacks. -/
lemma pollAndIngest_store_failure (st : PipelineState) (L : List TranscriptUtterance)
    (hc : Bool) (cb : TranscriptUtterance → Bool)
    (hnew : (dedupPartition st.seen_ids L).1 ≠ []) :
    pollAndIngest st (.ok L) false hc cb =
      ({st with
          seen_ids := (dedupPartition st.seen_ids L).2.1
          stats := {st.stats with
            polls := st.stats.polls + 1
            duplicates_skipped := st.stats.duplicates_skipped + (dedupPartition st.seen_ids L).2.2
            errors := st.stats.errors + 1}},
       [.fetchCall st.last_ts, .storeCall (dedupPartition st.seen_ids L).1]) := by
  have hL : L.isEmpty = false := by
    rw [List.isEmpty_eq_false]
    rintro rfl
    simp [dedupPartition] at hnew
  have hne : (dedupPartition st.seen_ids L).1.isEmpty = false :=
    List.isEmpty_eq_false.mpr hnew
  simp [pollAndIngest, hL, hne, upsert_utterances]

/-- Cycle whose batch store succeeds (lines 143-161): ingested counter
grows by the batch, callbacks fire in order, watermark advances
monotonically. -/
lemma pollAndIngest_store_success (st : PipelineState) (L : List TranscriptUtterance)
    (hc : Bool) (cb : TranscriptUtterance → Bool) (m : ℚ)
    (hnew : (dedupPartition st.seen_ids L).1 ≠ [])
    (hm : maxStartTs (dedupPartition st.seen_ids L).1 = some m) :
    pollAndIngest st (.ok L) true hc cb =
      ({st with
          seen_ids := (dedupPartition st.seen_ids L).2.1
          last_ts := advanceWatermark st.last_ts m
          stats := {st.stats with
            polls := st.stats.polls + 1
            duplicates_skipped := st.stats.duplicates_skipped + (dedupPartition st.seen_ids L).2.2
            utterances_ingested := st.stats.utterances_ingested + (dedupPartition st.seen_ids L).1.length}},
       [.fetchCall st.last_ts, .storeCall (dedupPartition st.seen_ids L).1] ++
         ((dedupPartition st.seen_ids L).1.map (cbEvents hc cb)).flatten) := by
  have hL : L.isEmpty = false := by
    rw [List.isEmpty_eq_false]
    rintro rfl
    simp [dedupPartition] at hnew
  have hne : (dedupPartition st.seen_ids L).1.isEmpty = false :=
    List.isEmpty_eq_false.mpr hnew
  simp [pollAndIngest, hL, hne, upsert_utterances, hm]

/-- A non-empty batch has a maximum start time. -/
lemma maxStartTs_isSome (L : List TranscriptUtterance) (h : L ≠ []) :
    ∃ m, maxStartTs L = some m := by
  cases L with
  | nil => exact absurd rfl h
  | cons u rest => exact ⟨_, rfl⟩

/-- The watermark order is reflexive. -/
lemma wmLeB_refl (a : Option ℚ) : wmLeB a a = true := by
  cases a <;> simp [wmLeB]

/-- The watermark update never moves the watermark down. -/
lemma wmLeB_advance (cur : Option ℚ) (m : ℚ) :
    wmLeB cur (advanceWatermark cur m) = true := by
  cases cur with
  | none => simp [wmLeB, advanceWatermark]
  | some w =>
    by_cases h : w < m
    · simp [wmLeB, advanceWatermark, h, le_of_lt h]
    · simp [wmLeB, advanceWatermark, h]

/-- After any cycle on a returned fetch list, the seen-set is exactly the
dedup loop's output set. -/
lemma pollAndIngest_ok_seen (st : PipelineState) (L : List TranscriptUtterance)
    (c hc : Bool) (cb : TranscriptUtterance → Bool) :
    (pollAndIngest st (.ok L) c hc cb).1.seen_ids = (dedupPartition st.seen_ids L).2.1 := by
  by_cases hL : L = []
  · subst hL
    rw [pollAndIngest_ok_nil]
    simp [dedupPartition]
  · have hLe : L.isEmpty = false := List.isEmpty_eq_false.mpr hL
    by_cases hnone : (dedupPartition st.seen_ids L).1 = []
    · rw [pollAndIngest_ok_nonew st L c hc cb hLe hnone]
    · cases c with
      | false => rw [pollAndIngest_store_failure st L hc cb hnone]
      | true =>
        obtain ⟨m, hm⟩ := maxStartTs_isSome _ hnone
        rw [pollAndIngest_store_success st L hc cb m hnone hm]

/-- Every cycle opens with the fetch call for the current watermark
window. -/
lemma pollAndIngest_fetch_window (st : PipelineState) (f : FetchOutcome)
    (c hc : Bool) (cb : TranscriptUtterance → Bool) :
    (pollAndIngest st f c hc cb).2.head? = some (.fetchCall st.last_ts) := by
  cases f with
  | error => rfl
  | ok L =>
    by_cases hL : L = []
    · subst hL; rfl
    · have hLe : L.isEmpty = false := List.isEmpty_eq_false.mpr hL
      by_cases hnone : (dedupPartition st.seen_ids L).1 = []
      · rw [pollAndIngest_ok_nonew st L c hc cb hLe hnone]
        rfl
      · cases c with
        | false =>
          rw [pollAndIngest_store_failure st L hc cb hnone]
          rfl
        | true =>
          obtain ⟨m, hm⟩ := maxStartTs_isSome _ hnone
          rw [pollAndIngest_store_success st L hc cb m hnone hm]
          rfl

/-! ## Claim C2: store failure isolation -/

/-- C2.  If the batch upsert fails on a non-empty list of new items, the
cycle leaves the error counter bumped by exactly one, the watermark and
the ingested counter untouched, invokes no callback, and the new items'
ids stay in the seen-set. -/
theorem C2_store_failure_isolation (st : PipelineState) (L : List TranscriptUtterance)
    (hc : Bool) (cb : TranscriptUtterance → Bool)
    (hnew : (dedupPartition st.seen_ids L).1 ≠ []) :
    (pollAndIngest st (.ok L) false hc cb).1.stats.errors = st.stats.errors + 1 ∧
    (pollAndIngest st (.ok L) false hc cb).1.last_ts = st.last_ts ∧
    (pollAndIngest st (.ok L) false hc cb).1.stats.utterances_ingested =
      st.stats.utterances_ingested ∧
    callbackCalls (pollAndIngest st (.ok L) false hc cb).2 = [] ∧
    ∀ u ∈ (dedupPartition st.seen_ids L).1,
      computeId u ∈ (pollAndIngest st (.ok L) false hc cb).1.seen_ids := by
  rw [pollAndIngest_store_failure st L hc cb hnew]
  refine ⟨rfl, rfl, rfl, rfl, fun u hu => ?_⟩
  exact dedup_mem_seen L st.seen_ids u (dedup_news_mem L st.seen_ids u hu)

/-- Concrete utterances for witnesses. -/
def uW1 : TranscriptUtterance :=
  { meeting_id := "m1", speaker_id := "s1", speaker_name := none,
    text := "hello", start_ts := 5, end_ts := none, source := "vexa" }

/-- Second concrete witness utterance. -/
def uW2 : TranscriptUtterance :=
  { meeting_id := "m1", speaker_id := "s2", speaker_name := some "Bea",
    text := "world", start_ts := 7, end_ts := some 8, source := "vexa" }

set_option maxRecDepth 1000000 in
/-- C2 witness: `C2_store_failure_isolation` at the initial state with a
fresh batch of two utterances and a failing store. -/
theorem C2_store_failure_isolation_witness :
    (dedupPartition initialState.seen_ids [uW1, uW2]).1 ≠ [] ∧
    ((pollAndIngest initialState (.ok [uW1, uW2]) false true (fun _ => false)).1.stats.errors =
        initialState.stats.errors + 1 ∧
      (pollAndIngest initialState (.ok [uW1, uW2]) false true (fun _ => false)).1.last_ts =
        initialState.last_ts ∧
      (pollAndIngest initialState (.ok [uW1, uW2]) false true (fun _ => false)).1.stats.utterances_ingested =
        initialState.stats.utterances_ingested ∧
      callbackCalls (pollAndIngest initialState (.ok [uW1, uW2]) false true (fun _ => false)).2 = [] ∧
      ∀ u ∈ (dedupPartition initialState.seen_ids [uW1, uW2]).1,
        computeId u ∈ (pollAndIngest initialState (.ok [uW1, uW2]) false true (fun _ => false)).1.seen_ids) :=
  ⟨by decide, C2_store_failure_isolation initialState [uW1, uW2] true (fun _ => false) (by decide)⟩

/-! ## Claim C3: monotone watermark -/

/-- C3.  The watermark never decreases over a cycle, whatever the cycle's
outcome; and on a successful store of a non-empty batch with maximum new
start time `m`, the watermark becomes `m` exactly when there is no
watermark yet or `m` exceeds it, and is left alone otherwise. -/
theorem C3_watermark_monotone :
    (∀ (st : PipelineState) (f : FetchOutcome) (c hc : Bool)
        (cb : TranscriptUtterance → Bool),
      wmLeB st.last_ts (pollAndIngest st f c hc cb).1.last_ts = true) ∧
    (∀ (st : PipelineState) (L : List TranscriptUtterance) (hc : Bool)
        (cb : TranscriptUtterance → Bool) (m : ℚ),
      (dedupPartition st.seen_ids L).1 ≠ [] →
      maxStartTs (dedupPartition st.seen_ids L).1 = some m →
      ((st.last_ts = none ∨ ∃ w, st.last_ts = some w ∧ w < m) →
        (pollAndIngest st (.ok L) true hc cb).1.last_ts = some m) ∧
      (∀ w, st.last_ts = some w → ¬ w < m →
        (pollAndIngest st (.ok L) true hc cb).1.last_ts = st.last_ts)) := by
  constructor
  · intro st f c hc cb
    cases f with
    | error => rw [pollAndIngest_fetch_error]; exact wmLeB_refl _
    | ok L =>
      by_cases hL : L = []
      · subst hL; rw [pollAndIngest_ok_nil]; exact wmLeB_refl _
      · have hLe : L.isEmpty = false := List.isEmpty_eq_false.mpr hL
        by_cases hnone : (dedupPartition st.seen_ids L).1 = []
        · rw [pollAndIngest_ok_nonew st L c hc cb hLe hnone]; exact wmLeB_refl _
        · cases c with
          | false => rw [pollAndIngest_store_failure st L hc cb hnone]; exact wmLeB_refl _
          | true =>
            obtain ⟨m, hm⟩ := maxStartTs_isSome _ hnone
            rw [pollAndIngest_store_success st L hc cb m hnone hm]
            exact wmLeB_advance _ _
  · intro st L hc cb m hnew hm
    rw [pollAndIngest_store_success st L hc cb m hnew hm]
    constructor
    · rintro (hcur | ⟨w, hcur, hlt⟩)
      · simp [advanceWatermark, hcur]
      · simp [advanceWatermark, hcur, hlt]
    · intro w hcur hlt
      simp [advanceWatermark, hcur, hlt]

set_option maxRecDepth 1000000 in
/-- C3 witness: `C3_watermark_monotone` at the initial state with one
fresh utterance; the empty watermark advances to its start time. -/
theorem C3_watermark_monotone_witness :
    ((dedupPartition initialState.seen_ids [uW1]).1 ≠ [] ∧
     maxStartTs (dedupPartition initialState.seen_ids [uW1]).1 = some 5) ∧
    wmLeB initialState.last_ts
      (pollAndIngest initialState (.ok [uW1]) true false (fun _ => false)).1.last_ts = true ∧
    (pollAndIngest initialState (.ok [uW1]) true false (fun _ => false)).1.last_ts = some 5 :=
  ⟨⟨by decide, by decide⟩,
   C3_watermark_monotone.1 initialState (.ok [uW1]) true false (fun _ => false),
   (C3_watermark_monotone.2 initialState [uW1] false (fun _ => false) 5
      (by decide) (by decide)).1 (Or.inl rfl)⟩

/-! ## Claim C4: fetch failure isolation -/

/-- C4.  A failing fetch leaves the cycle with the poll and error counters
bumped by one and everything else — watermark, seen-set, ingested and
duplicate counters — untouched, and the following cycle opens its fetch
with the identical watermark window. -/
theorem C4_fetch_failure_isolation (st : PipelineState) (c hc : Bool)
    (cb : TranscriptUtterance → Bool) :
    pollAndIngest st .error c hc cb =
      ({st with stats := {st.stats with
          polls := st.stats.polls + 1
          errors := st.stats.errors + 1}},
       [.fetchCall st.last_ts]) ∧
    ∀ (f2 : FetchOutcome) (c2 hc2 : Bool) (cb2 : TranscriptUtterance → Bool),
      (pollAndIngest (pollAndIngest st .error c hc cb).1 f2 c2 hc2 cb2).2.head? =
        some (.fetchCall st.last_ts) := by
  refine ⟨pollAndIngest_fetch_error st c hc cb, fun f2 c2 hc2 cb2 => ?_⟩
  rw [pollAndIngest_fetch_error st c hc cb]
  exact pollAndIngest_fetch_window _ f2 c2 hc2 cb2

/-! ## Claim C5: idempotence across cycles -/

/-- C5.  Re-delivering the identical fetch list in the next cycle stores
nothing (the store is never called), bumps the duplicate counter by the
list's length, and leaves the ingested counter, the watermark and the
seen-set unchanged. -/
theorem C5_idempotent_redelivery (st : PipelineState) (L : List TranscriptUtterance)
    (hc c2 hc2 : Bool) (cb cb2 : TranscriptUtterance → Bool) :
    (pollAndIngest (pollAndIngest st (.ok L) true hc cb).1 (.ok L) c2 hc2 cb2).1.stats.duplicates_skipped =
      (pollAndIngest st (.ok L) true hc cb).1.stats.duplicates_skipped + L.length ∧
    (pollAndIngest (pollAndIngest st (.ok L) true hc cb).1 (.ok L) c2 hc2 cb2).1.stats.utterances_ingested =
      (pollAndIngest st (.ok L) true hc cb).1.stats.utterances_ingested ∧
    (pollAndIngest (pollAndIngest st (.ok L) true hc cb).1 (.ok L) c2 hc2 cb2).1.last_ts =
      (pollAndIngest st (.ok L) true hc cb).1.last_ts ∧
    storeCalls (pollAndIngest (pollAndIngest st (.ok L) true hc cb).1 (.ok L) c2 hc2 cb2).2 = [] ∧
    (pollAndIngest (pollAndIngest st (.ok L) true hc cb).1 (.ok L) c2 hc2 cb2).1.seen_ids =
      (pollAndIngest st (.ok L) true hc cb).1.seen_ids := by
  set st1 := (pollAndIngest st (.ok L) true hc cb).1 with hst1
  have hall : ∀ u ∈ L, computeId u ∈ st1.seen_ids := by
    intro u hu
    rw [hst1, pollAndIngest_ok_seen]
    exact dedup_mem_seen L st.seen_ids u hu
  have hded : dedupPartition st1.seen_ids L = ([], st1.seen_ids, L.length) :=
    dedup_all_seen L st1.seen_ids hall
  by_cases hL : L = []
  · subst hL
    rw [pollAndIngest_ok_nil]
    exact ⟨by simp, rfl, rfl, rfl, rfl⟩
  · have hLe : L.isEmpty = false := List.isEmpty_eq_false.mpr hL
    have hnone : (dedupPartition st1.seen_ids L).1 = [] := by rw [hded]
    rw [pollAndIngest_ok_nonew st1 L c2 hc2 cb2 hLe hnone]
    refine ⟨by rw [hded], rfl, rfl, rfl, by rw [hded]⟩

/-! ## Claim C6: callback invocation and isolation -/

/-- `callbackCalls` ignores a fetch event. -/
lemma callbackCalls_skip_fetch (x : Option ℚ) (evs : List CycleEvent) :
    callbackCalls (CycleEvent.fetchCall x :: evs) = callbackCalls evs := by
  simp [callbackCalls]

/-- `callbackCalls` ignores a store event. -/
lemma callbackCalls_skip_store (l : List TranscriptUtterance) (evs : List CycleEvent) :
    callbackCalls (CycleEvent.storeCall l :: evs) = callbackCalls evs := by
  simp [callbackCalls]

/-- The callback block invokes the callback exactly once per new
utterance, in arrival order, whether or not some invocations raise. -/
lemma callbackCalls_cbFlat (hc : Bool) (cb : TranscriptUtterance → Bool)
    (l : List TranscriptUtterance) :
    callbackCalls ((l.map (cbEvents hc cb)).flatten) = if hc then l else [] := by
  induction l with
  | nil => cases hc <;> simp [callbackCalls]
  | cons u rest ih =>
    cases hc with
    | false => simpa [cbEvents, callbackCalls] using ih
    | true =>
      by_cases hcb : cb u <;>
        simp [cbEvents, callbackCalls, hcb, List.filterMap_append] <;>
        simpa [callbackCalls] using ih

/-- `storeCalls` ignores a fetch event. -/
lemma storeCalls_skip_fetch (x : Option ℚ) (evs : List CycleEvent) :
    storeCalls (CycleEvent.fetchCall x :: evs) = storeCalls evs := by
  simp [storeCalls]

/-- `storeCalls` records a store event. -/
lemma storeCalls_cons_store (l : List TranscriptUtterance) (evs : List CycleEvent) :
    storeCalls (CycleEvent.storeCall l :: evs) = l :: storeCalls evs := by
  simp [storeCalls]

/-- The callback block never contacts the store. -/
lemma storeCalls_cbFlat (hc : Bool) (cb : TranscriptUtterance → Bool)
    (l : List TranscriptUtterance) :
    storeCalls ((l.map (cbEvents hc cb)).flatten) = [] := by
  induction l with
  | nil => simp [storeCalls]
  | cons u rest ih =>
    cases hc with
    | false => simpa [cbEvents, storeCalls] using ih
    | true =>
      by_cases hcb : cb u <;>
        simp [cbEvents, storeCalls, hcb, List.filterMap_append] <;>
        simpa [storeCalls] using ih

set_option maxRecDepth 1000000 in
/-- C6, counterexample.  The claim asserts a raised callback exception is
"counted as an error".  In a cycle where the only callback invocation
raises (the `callbackLogged` event is present), the error counter stays at
zero: lines 153-156 of `ingestion.py` catch and log the exception without
touching `_stats["errors"]`. -/
theorem C6_counterexample :
    (pollAndIngest initialState (.ok [uW1]) true true (fun _ => true)).1.stats.errors = 0 ∧
    callbackCalls (pollAndIngest initialState (.ok [uW1]) true true (fun _ => true)).2 = [uW1] ∧
    CycleEvent.callbackLogged uW1 ∈ (pollAndIngest initialState (.ok [uW1]) true true (fun _ => true)).2 := by
  decide

/-- C6, amended.  After a successful batch store the callback, when
registered, is invoked exactly once per newly stored utterance,
synchronously, in the batch's arrival order; the batch is stored exactly
once; a raised callback exception is caught and logged and never aborts
the cycle, prevents the remaining invocations, or changes any state —
but it is *not* counted in the error counter. -/
theorem C6_callback_isolation_amended (st : PipelineState) (L : List TranscriptUtterance)
    (hc : Bool) (cb cb' : TranscriptUtterance → Bool)
    (hnew : (dedupPartition st.seen_ids L).1 ≠ []) :
    callbackCalls (pollAndIngest st (.ok L) true hc cb).2 =
      (if hc then (dedupPartition st.seen_ids L).1 else []) ∧
    storeCalls (pollAndIngest st (.ok L) true hc cb).2 =
      [(dedupPartition st.seen_ids L).1] ∧
    (pollAndIngest st (.ok L) true hc cb).1.stats.utterances_ingested =
      st.stats.utterances_ingested + (dedupPartition st.seen_ids L).1.length ∧
    (pollAndIngest st (.ok L) true hc cb).1.stats.errors = st.stats.errors ∧
    (pollAndIngest st (.ok L) true hc cb).1 = (pollAndIngest st (.ok L) true hc cb').1 := by
  obtain ⟨m, hm⟩ := maxStartTs_isSome _ hnew
  rw [pollAndIngest_store_success st L hc cb m hnew hm,
      pollAndIngest_store_success st L hc cb' m hnew hm]
  refine ⟨?_, ?_, rfl, rfl, rfl⟩
  · rw [List.cons_append, List.cons_append, List.nil_append,
        callbackCalls_skip_fetch, callbackCalls_skip_store, callbackCalls_cbFlat]
  · rw [List.cons_append, List.cons_append, List.nil_append,
        storeCalls_skip_fetch, storeCalls_cons_store, storeCalls_cbFlat]

set_option maxRecDepth 1000000 in
/-- C6 witness: `C6_callback_isolation_amended` at the initial state with
one fresh utterance, an always-raising callback, and an all-succeeding
callback for comparison. -/
theorem C6_callback_isolation_witness :
    (dedupPartition initialState.seen_ids [uW1]).1 ≠ [] ∧
    (callbackCalls (pollAndIngest initialState (.ok [uW1]) true true (fun _ => true)).2 =
       (if true then (dedupPartition initialState.seen_ids [uW1]).1 else []) ∧
     storeCalls (pollAndIngest initialState (.ok [uW1]) true true (fun _ => true)).2 =
       [(dedupPartition initialState.seen_ids [uW1]).1] ∧
     (pollAndIngest initialState (.ok [uW1]) true true (fun _ => true)).1.stats.utterances_ingested =
       initialState.stats.utterances_ingested + (dedupPartition initialState.seen_ids [uW1]).1.length ∧
     (pollAndIngest initialState (.ok [uW1]) true true (fun _ => true)).1.stats.errors =
       initialState.stats.errors ∧
     (pollAndIngest initialState (.ok [uW1]) true true (fun _ => true)).1 =
       (pollAndIngest initialState (.ok [uW1]) true true (fun _ => false)).1) :=
  ⟨by decide,
   C6_callback_isolation_amended initialState [uW1] true (fun _ => true) (fun _ => false) (by decide)⟩

/-! ## Run loop and lifecycle (`IngestionPipeline.run` / `stop`) -/

/-- Collaborator behaviour for one cycle of the run loop, plus whether a
stop request (from `stop()`, possibly issued by a signal handler) is
pending when the loop next checks its flag. -/
structure CycleInputs where
  fetch : FetchOutcome
  clientOk : Bool
  hasCallback : Bool
  callbackFails : TranscriptUtterance → Bool
  stopReq : Bool

/-- The first statement of `run` (line 76): `self._running = True`.  Note
the code guards nothing: it applies to whatever state the instance is in. -/
def runEnter (st : PipelineState) : PipelineState := {st with running := true}

/-- `IngestionPipeline.stop` (lines 104-107): `self._running = False`. -/
def stopOp (st : PipelineState) : PipelineState := {st with running := false}

/-- The loop-exit test of line 87:
`if max_iterations and iteration >= max_iterations: break`.
Python truthiness: `max_iterations = 0` is falsy, so a zero limit never
triggers the break. -/
def limitHit (limit : Option Nat) (iteration : Nat) : Bool :=
  match limit with
  | none => false
  | some n => if n = 0 then false else decide (n ≤ iteration)

/-- State of the `while` loop of `run`: the instance state, the local
`iteration` counter, and whether the loop has been left. -/
structure LoopState where
  pipe : PipelineState
  iteration : Nat
  exited : Bool
deriving DecidableEq, Repr

/-- One pass of the `while self._running:` loop (lines 82-99): observe a
pending stop request, test the running flag, execute a cycle, bump
`iteration`, test the cycle limit.  The sleep is the untimed gap between
steps. -/
def loopStep (limit : Option Nat) (ins : Nat → CycleInputs) (ls : LoopState) : LoopState :=
  if ls.exited then ls
  else
    let pipe0 := if (ins ls.iteration).stopReq then stopOp ls.pipe else ls.pipe
    if pipe0.running then
      let c := ins ls.iteration
      let pipe1 := (pollAndIngest pipe0 c.fetch c.clientOk c.hasCallback c.callbackFails).1
      let it1 := ls.iteration + 1
      if limitHit limit it1 then {pipe := pipe1, iteration := it1, exited := true}
      else {pipe := pipe1, iteration := it1, exited := false}
    else {ls with pipe := pipe0, exited := true}

/-- `k` passes of the loop. -/
def loopRun (limit : Option Nat) (ins : Nat → CycleInputs) : Nat → LoopState → LoopState
  | 0, ls => ls
  | k + 1, ls => loopRun limit ins k (loopStep limit ins ls)

/-- `run(max_iterations)` observed after `k` loop passes: enter `Running`,
then iterate. -/
def runFor (limit : Option Nat) (ins : Nat → CycleInputs) (k : Nat)
    (st : PipelineState) : LoopState :=
  loopRun limit ins k {pipe := runEnter st, iteration := 0, exited := false}

/-- The statement after the loop (line 101): once the loop has been left,
`self._running = False`. -/
def runFinish (ls : LoopState) : LoopState :=
  if ls.exited then {ls with pipe := {ls.pipe with running := false}} else ls

/-- The instance state after a bounded `run` call observed for `k` passes. -/
def runResult (limit : Option Nat) (ins : Nat → CycleInputs) (k : Nat)
    (st : PipelineState) : PipelineState :=
  (runFinish (runFor limit ins k st)).pipe

/-- A cycle never touches the running flag (`_poll_and_ingest` does not
reference `_running`). -/
lemma pollAndIngest_running (st : PipelineState) (f : FetchOutcome) (c hc : Bool)
    (cb : TranscriptUtterance → Bool) :
    (pollAndIngest st f c hc cb).1.running = st.running := by
  cases f with
  | error => rw [pollAndIngest_fetch_error]
  | ok L =>
    by_cases hL : L = []
    · subst hL; rw [pollAndIngest_ok_nil]
    · have hLe : L.isEmpty = false := List.isEmpty_eq_false.mpr hL
      by_cases hnone : (dedupPartition st.seen_ids L).1 = []
      · rw [pollAndIngest_ok_nonew st L c hc cb hLe hnone]
      · cases c with
        | false => rw [pollAndIngest_store_failure st L hc cb hnone]
        | true =>
          obtain ⟨m, hm⟩ := maxStartTs_isSome _ hnone
          rw [pollAndIngest_store_success st L hc cb m hnone hm]

/-- A finished loop stays finished. -/
lemma loopStep_exited (limit : Option Nat) (ins : Nat → CycleInputs) (ls : LoopState)
    (h : ls.exited = true) : loopStep limit ins ls = ls := by
  simp [loopStep, h]

/-- A finished loop stays finished under iteration. -/
lemma loopRun_exited (limit : Option Nat) (ins : Nat → CycleInputs) (k : Nat)
    (ls : LoopState) (h : ls.exited = true) : loopRun limit ins k ls = ls := by
  induction k with
  | zero => rfl
  | succ k ih => rw [loopRun, loopStep_exited limit ins ls h, ih]

/-- Iterating the loop splits into consecutive runs. -/
lemma loopRun_add (limit : Option Nat) (ins : Nat → CycleInputs) (a b : Nat)
    (ls : LoopState) :
    loopRun limit ins (b + a) ls = loopRun limit ins b (loopRun limit ins a ls) := by
  induction a generalizing ls with
  | zero => rfl
  | succ a ih => exact ih (loopStep limit ins ls)

/-- Below a positive cycle limit and absent stop requests, the loop keeps
running and counts one iteration per pass. -/
lemma loopRun_progress (N : Nat) (ins : Nat → CycleInputs)
    (hstop : ∀ i, (ins i).stopReq = false) :
    ∀ (k i : Nat) (p : PipelineState), p.running = true → i + k < N →
    ∃ q : PipelineState, q.running = true ∧
      loopRun (some N) ins k {pipe := p, iteration := i, exited := false} =
        {pipe := q, iteration := i + k, exited := false} := by
  intro k
  induction k with
  | zero => exact fun i p hp _ => ⟨p, hp, rfl⟩
  | succ k ih =>
    intro i p hp hik
    have hstep : loopStep (some N) ins {pipe := p, iteration := i, exited := false} =
        {pipe := (pollAndIngest p (ins i).fetch (ins i).clientOk
                    (ins i).hasCallback (ins i).callbackFails).1,
         iteration := i + 1, exited := false} := by
      have h0 : ¬ N = 0 := by omega
      have h1 : ¬ N ≤ i + 1 := by omega
      simp [loopStep, hstop i, hp, limitHit, h0, h1]
    have hrun : (pollAndIngest p (ins i).fetch (ins i).clientOk
        (ins i).hasCallback (ins i).callbackFails).1.running = true := by
      rw [pollAndIngest_running]; exact hp
    obtain ⟨q, hq, heq⟩ := ih (i + 1) _ hrun (by omega)
    refine ⟨q, hq, ?_⟩
    rw [loopRun, hstep, heq]
    congr 1
    omega

/-- With a positive limit `N` and no stop requests, any `k ≥ N` passes
leave the loop exited at iteration exactly `N`. -/
lemma loopRun_hits_limit (N : Nat) (ins : Nat → CycleInputs)
    (hstop : ∀ i, (ins i).stopReq = false) (hN : 0 < N) (st : PipelineState)
    (hst : st.running = true) (k : Nat) (hk : N ≤ k) :
    ∃ q : PipelineState,
      loopRun (some N) ins k {pipe := st, iteration := 0, exited := false} =
        {pipe := q, iteration := N, exited := true} := by
  obtain ⟨q0, hq0, heq0⟩ := loopRun_progress N ins hstop (N - 1) 0 st hst (by omega)
  have hstep : loopStep (some N) ins {pipe := q0, iteration := N - 1, exited := false} =
      {pipe := (pollAndIngest q0 (ins (N - 1)).fetch (ins (N - 1)).clientOk
                  (ins (N - 1)).hasCallback (ins (N - 1)).callbackFails).1,
       iteration := N, exited := true} := by
    have h0 : ¬ N = 0 := by omega
    have h1 : N ≤ (N - 1) + 1 := by omega
    have h2 : (N - 1) + 1 = N := by omega
    simp [loopStep, hstop (N - 1), hq0, limitHit, h0, h1, h2]
  have hsplit : k = (k - N) + (1 + (N - 1)) := by omega
  simp only [Nat.zero_add] at heq0
  rw [hsplit, loopRun_add, loopRun_add, heq0,
      show loopRun (some N) ins 1 {pipe := q0, iteration := N - 1, exited := false} =
        loopStep (some N) ins {pipe := q0, iteration := N - 1, exited := false} from rfl,
      hstep, loopRun_exited _ _ _ _ rfl]
  exact ⟨_, rfl⟩

/-! ## Claims C7 and C8: lifecycle and bounded runs -/

/-- All-trivial cycle inputs: empty fetch results, a succeeding store, no
callback, and never a stop request. -/
def insTriv : Nat → CycleInputs := fun _ =>
  { fetch := .ok [], clientOk := true, hasCallback := false,
    callbackFails := fun _ => false, stopReq := false }

set_option maxRecDepth 1000000 in
/-- C7, counterexample.  The claim asserts `Stopped` is terminal: no
sequence of public operations on a stopped instance returns it to
`Running`.  Run a one-cycle bounded `run` to completion: the instance is
stopped (`running = false`) and has genuinely run (`polls = 1`, so this is
`Stopped`, not `Idle`).  Calling `run` again — a public operation, which
line 76 begins with `self._running = True` without any state guard —
returns the instance to `Running`, and it remains `Running` five loop
passes later. -/
theorem C7_counterexample :
    (runResult (some 1) insTriv 3 initialState).running = false ∧
    (runResult (some 1) insTriv 3 initialState).stats.polls = 1 ∧
    (runEnter (runResult (some 1) insTriv 3 initialState)).running = true ∧
    (runFor none insTriv 5 (runResult (some 1) insTriv 3 initialState)).pipe.running = true := by
  decide

/-- C7, amended.  The lifecycle admits the transitions the claim lists —
`run` enters `Running`, `stop` and the epilogue of `run` leave the
instance not running — but `Stopped` is represented identically to `Idle`
(the single `_running` flag) and is *not* terminal: `run` re-enters
`Running` from any state, including a stopped one
(`C7_counterexample`). -/
theorem C7_lifecycle_amended :
    (∀ st : PipelineState, (runEnter st).running = true) ∧
    (∀ st : PipelineState, (stopOp st).running = false) ∧
    (∀ (st : PipelineState) (n : Nat),
      (runFinish {pipe := st, iteration := n, exited := true}).pipe.running = false) :=
  ⟨fun _ => rfl, fun _ => rfl, fun _ _ => by simp [runFinish]⟩

set_option maxRecDepth 1000000 in
/-- C8, counterexample.  The claim asserts that for *every* supplied cycle
limit `N` the loop runs exactly `N` cycles and stops.  With limit `0`,
Python's truthiness makes `if max_iterations and ...` skip the break
(`0` is falsy), so the loop never consults the limit: after 20 passes it
has executed 20 cycles and is still running. -/
theorem C8_counterexample :
    (runFor (some 0) insTriv 20 initialState).exited = false ∧
    (runFor (some 0) insTriv 20 initialState).iteration = 20 ∧
    (runFor (some 0) insTriv 20 initialState).pipe.running = true := by
  decide

/-- C8, amended.  For every *positive* cycle limit `N`, absent stop
requests, the loop is still running with `j` completed cycles for every
`j < N`, and after any `k ≥ N` passes it has exited with exactly `N`
cycles executed and the instance no longer running; a limit of `0` is
falsy in the Python guard and never terminates the loop
(`C8_counterexample`). -/
theorem C8_bounded_run_amended (N : Nat) (ins : Nat → CycleInputs) (st : PipelineState)
    (k : Nat) (hN : 0 < N) (hstop : ∀ i, (ins i).stopReq = false) (hk : N ≤ k) :
    (runFor (some N) ins k st).exited = true ∧
    (runFor (some N) ins k st).iteration = N ∧
    (runResult (some N) ins k st).running = false ∧
    ∀ j, j < N → (runFor (some N) ins j st).exited = false ∧
      (runFor (some N) ins j st).iteration = j := by
  obtain ⟨q, hq⟩ := loopRun_hits_limit N ins hstop hN (runEnter st) rfl k hk
  have hrf : runFor (some N) ins k st = {pipe := q, iteration := N, exited := true} := hq
  refine ⟨by rw [hrf], by rw [hrf], ?_, fun j hj => ?_⟩
  · rw [runResult, hrf]
    simp [runFinish]
  · obtain ⟨p, hp, heq⟩ := loopRun_progress N ins hstop j 0 (runEnter st) rfl (by omega)
    have : runFor (some N) ins j st = {pipe := p, iteration := 0 + j, exited := false} := heq
    rw [this]
    simp

set_option maxRecDepth 1000000 in
/-- C8 witness: `C8_bounded_run_amended` with limit 2 observed for 3
passes from the initial state under trivial inputs. -/
theorem C8_bounded_run_witness :
    (0 < 2 ∧ (∀ i, (insTriv i).stopReq = false) ∧ 2 ≤ 3) ∧
    ((runFor (some 2) insTriv 3 initialState).exited = true ∧
     (runFor (some 2) insTriv 3 initialState).iteration = 2 ∧
     (runResult (some 2) insTriv 3 initialState).running = false ∧
     ∀ j, j < 2 → (runFor (some 2) insTriv j initialState).exited = false ∧
       (runFor (some 2) insTriv j initialState).iteration = j) :=
  ⟨⟨by decide, fun _ => rfl, by decide⟩,
   C8_bounded_run_amended 2 insTriv initialState 3 (by decide) (fun _ => rfl) (by decide)⟩

/-! ## Claim C10: empty batch upsert -/

/-- C10.  `upsert_utterances` on an empty list returns success immediately:
no points are built and the underlying client is never contacted (the
event trace is empty), whatever the client would have done. -/
theorem C10_empty_upsert (clientOk : Bool) :
    upsert_utterances [] clientOk = (true, []) := rfl
